import Mathlib

/-!
Verification development for the tmuxcc agent-monitoring core.

This file gives a shallow embedding, in Lean, of the core data model and
algorithms of the repository: the string heuristics of the Claude Code
parser (`src/parsers/claude_code.rs`), the parser registry
(`src/parsers/mod.rs`), the process-tree cache and pane parsing
(`src/tmux/pane.rs`, `src/tmux/client.rs`) and the monitor loop's
hysteresis, backoff, merge and sort logic (`src/monitor/task.rs`).

Modelling conventions:
* Rust `&str` values are embedded as `List Char` (`Str` below).  Byte
  lengths (`str::len`) are computed by summing UTF-8 sizes of chars.
* Rust regexes are embedded as hand-compiled matching functions over
  `List Char`; each definition carries the original pattern in a comment.
  Character classes `\s`, `\d`, `\w` are modelled by their ASCII parts
  (`Char.isWhitespace`, `Char.isDigit`, alphanumeric or underscore),
  matching the ASCII terminal text the parser consumes.
* `std::time::Instant` values are embedded as `Nat` milliseconds.
* `HashMap<String, Instant>` (the hysteresis map) is embedded as a
  function `Str → Option Nat`; `HashMap<u32, ProcessInfo>` as an
  association list.
* Effectful calls (tmux commands, `ps`, HTTP) are embedded by passing
  their observable result (captured text, process listing, fetch
  outcome) as an explicit argument.
-/

set_option maxHeartbeats 4000000
set_option maxRecDepth 4000

/-- Strings are embedded as lists of chars. -/
abbrev Str := List Char

/-- Convert a Lean string literal into the embedding type. -/
def S (s : String) : Str := s.data

/-- Model of Rust `char::is_whitespace` / regex `\s` (ASCII part). -/
def rustIsWs (c : Char) : Bool := c.isWhitespace

/-- Rust `str::len`: byte length of the UTF-8 encoding. -/
def utf8Len (s : Str) : Nat := s.foldl (fun n c => n + c.utf8Size) 0

/-- Char-wise lowercasing, modelling Rust `str::to_lowercase`. -/
def toLowerStr (s : Str) : Str := s.map Char.toLower

/-- Case-sensitive prefix test (Rust `str::starts_with`). -/
def isPrefixStr (pat s : Str) : Bool := List.isPrefixOf pat s

/-- Case-sensitive substring test (Rust `str::contains`). -/
def containsStr : Str → Str → Bool
  | [], pat => pat.isEmpty
  | c :: t, pat => isPrefixStr pat (c :: t) || containsStr t pat

/-- Case-insensitive prefix test; `pat` is given in lowercase. -/
def ciStarts : Str → Str → Bool
  | [], _ => true
  | _ :: _, [] => false
  | p :: pt, c :: ct => (c.toLower == p) && ciStarts pt ct

/-- Case-insensitive substring test; `pat` is given in lowercase.
Models a `(?i)` literal alternative of a Rust regex. -/
def containsCI : Str → Str → Bool
  | [], pat => pat.isEmpty
  | c :: t, pat => ciStarts pat (c :: t) || containsCI t pat

/-- Does any suffix of the string match `p`?  Used to model unanchored
regex search (leftmost match exists iff some suffix matches). -/
def anySuffix (p : Str → Bool) : Str → Bool
  | [] => p []
  | c :: t => p (c :: t) || anySuffix p t

/-- Drop leading whitespace (Rust `str::trim_start`, regex `\s*`). -/
def wsDrop (s : Str) : Str := s.dropWhile rustIsWs

/-- Remove trailing whitespace. -/
def rtrimStr : Str → Str
  | [] => []
  | c :: t =>
    let r := rtrimStr t
    if r.isEmpty && rustIsWs c then [] else c :: r

/-- Model of Rust `str::trim`. -/
def trimStr (s : Str) : Str := rtrimStr (s.dropWhile rustIsWs)

/-- Split a string at every occurrence of `sep` (Rust `str::split`):
always yields at least one (possibly empty) segment. -/
def splitOnCharStr (sep : Char) : Str → List Str
  | [] => [[]]
  | c :: t =>
    if c == sep then [] :: splitOnCharStr sep t
    else
      match splitOnCharStr sep t with
      | h :: r => (c :: h) :: r
      | [] => [[c]]

/-- Split at the first occurrence of `sep` (Rust `str::split_once`). -/
def splitOnceChar (sep : Char) : Str → Option (Str × Str)
  | [] => none
  | c :: t =>
    if c == sep then some ([], t)
    else (splitOnceChar sep t).map (fun p => (c :: p.1, p.2))

/-- Strip one trailing carriage return (part of Rust `str::lines`). -/
def stripCr (s : Str) : Str :=
  match s.reverse with
  | '\r' :: r => r.reverse
  | _ => s

/-- Model of Rust `str::lines`: split on newline, dropping the segment
after a final trailing newline, and stripping a trailing `\r` of each
line.  The empty string yields no lines. -/
def linesSplit (s : Str) : List Str :=
  if s.isEmpty then []
  else
    let segs := splitOnCharStr '\n' s
    let segs := if s.getLast? == some '\n' then segs.dropLast else segs
    segs.map stripCr

/-- Join lines with newline separators (Rust `[&str]::join("\n")`). -/
def joinNl (ls : List Str) : Str := List.intercalate ['\n'] ls

/-- Model of `safe_tail` (src/parsers/mod.rs): last `maxChars` chars. -/
def safe_tail (s : Str) (maxChars : Nat) : Str :=
  if s.length ≤ maxChars then s else s.drop (s.length - maxChars)

/-- Numeric value of a digit string (no overflow: Lean `Nat`). -/
def digitsToNat (s : Str) : Nat := s.foldl (fun n c => n * 10 + (c.toNat - 48)) 0

/-- Parse a non-empty all-digit string. -/
def parseNatDigits (s : Str) : Option Nat :=
  if s.isEmpty then none
  else if s.all Char.isDigit then some (digitsToNat s) else none

/-- Model of Rust `str::parse::<uN>`: optional leading `+`, digits only,
failing when the value does not fit below `bound`. -/
def parseNatU (bound : Nat) (s : Str) : Option Nat :=
  let core :=
    match s with
    | '+' :: rest => parseNatDigits rest
    | _ => parseNatDigits s
  core.bind (fun n => if n < bound then some n else none)

/-- Exclusive upper bound of `u32`. -/
def U32_BOUND : Nat := 4294967296

/-- Exclusive upper bound of `u8`. -/
def U8_BOUND : Nat := 256

/-- Last index (0-based from `i`) of an element satisfying `p`
(Rust `Iterator::rposition` on slices, expressed directly). -/
def lastIdxP (p : α → Bool) : List α → Nat → Option Nat
  | [], _ => none
  | x :: xs, i =>
    match lastIdxP p xs (i + 1) with
    | some j => some j
    | none => if p x then some i else none

/-- The backquote character, written via its code point. -/
def backtickChar : Char := Char.ofNat 96

/-! ## Agent data model (src/agents/types.rs) -/

/-- `AgentType`: the supported agent products. -/
inductive AgentType where
  | claudeCode
  | openCode
  | codexCli
  | geminiCli
  | unknown
deriving DecidableEq, Repr

/-- `ApprovalType`: what kind of user decision a prompt represents. -/
inductive ApprovalType where
  | fileEdit
  | fileCreate
  | fileDelete
  | shellCommand
  | mcpTool
  | userQuestion (choices : List Str) (multiSelect : Bool)
  | other (desc : Str)
deriving DecidableEq, Repr

/-- `AgentStatus`: classification of an agent's current state. -/
inductive AgentStatus where
  | idle
  | processing (activity : Str)
  | awaitingApproval (approvalType : ApprovalType) (details : Str)
  | error (message : Str)
  | unknown
deriving DecidableEq, Repr

/-- Is the status an `AwaitingApproval`? -/
def statusIsAwaiting : AgentStatus → Bool
  | .awaitingApproval _ _ => true
  | _ => false

/-- Is the status an `AwaitingApproval` with a `UserQuestion` kind? -/
def statusIsUserQuestion : AgentStatus → Bool
  | .awaitingApproval (.userQuestion _ _) _ => true
  | _ => false

/-! ## Process-tree cache (src/tmux/pane.rs) -/

/-- `ProcessInfo`: command line and parent pid of one process. -/
structure ProcessInfo where
  command : Str
  parentPid : Option Nat
deriving DecidableEq, Repr

/-- `ProcessTreeCache`: snapshot of the process table plus the time of
the last successful refresh (milliseconds). -/
structure ProcessTreeCache where
  processes : List (Nat × ProcessInfo)
  lastUpdate : Nat
deriving DecidableEq, Repr

/-- Rust `line.trim().splitn(3, char::is_whitespace)`: at most three
parts, the third keeping the remainder verbatim. -/
def splitn3Ws (s : Str) : List Str :=
  let t := s.span (fun c => !(rustIsWs c))
  match t.2 with
  | [] => [t.1]
  | _ :: r2 =>
    let u := r2.span (fun c => !(rustIsWs c))
    match u.2 with
    | [] => [t.1, u.1]
    | _ :: r4 => [t.1, u.1, r4]

/-- Parse one `ps -A -o pid=,ppid=,command=` output line
(`ProcessTreeCache::refresh` body). -/
def parsePsLine (line : Str) : Option (Nat × ProcessInfo) :=
  match splitn3Ws (trimStr line) with
  | [p0, p1, p2] =>
    match parseNatU U32_BOUND p0, parseNatU U32_BOUND p1 with
    | some pid, some ppid =>
      some (pid, { command := trimStr p2,
                   parentPid := if ppid == 0 then none else some ppid })
    | _, _ => none
  | _ => none

/-- `ProcessTreeCache::refresh`: on a successful `ps` run replace the
table and stamp `now`; on failure leave everything unchanged. -/
def cacheRefreshApply (c : ProcessTreeCache) (now : Nat)
    (psOutput : Option Str) : ProcessTreeCache :=
  match psOutput with
  | none => c
  | some stdout =>
    { processes := (linesSplit stdout).filterMap parsePsLine, lastUpdate := now }

/-- `ProcessTreeCache::needs_refresh`: strictly more than 500ms since
the last update. -/
def needsRefresh (c : ProcessTreeCache) (now : Nat) : Bool :=
  decide (500 < now - c.lastUpdate)

/-- `refresh_process_cache`: refresh only when `needs_refresh`. -/
def refresh_process_cache (c : ProcessTreeCache) (now : Nat)
    (psOutput : Option Str) : ProcessTreeCache :=
  if needsRefresh c now then cacheRefreshApply c now psOutput else c

/-- `ProcessTreeCache::get_cmdline`: command of the process `pid`. -/
def cacheGetCmdline (c : ProcessTreeCache) (pid : Nat) : Option Str :=
  (c.processes.find? (fun e => e.1 == pid)).map (fun e => e.2.command)

/-- First whitespace-delimited token (`str::split_whitespace().next()`). -/
def firstToken (s : Str) : Option Str :=
  let t := s.dropWhile rustIsWs
  if t.isEmpty then none else some (t.takeWhile (fun c => !(rustIsWs c)))

/-- Token after the last `/` (`str::rsplit('/').next()`). -/
def afterLastSlash (s : Str) : Str :=
  ((s.reverse.takeWhile (fun c => c != '/'))).reverse

/-- The basename variant pushed by `collect_children`: basename of the
first token, only when it differs from the full command. -/
def baseNameVariant (cmd : Str) : List Str :=
  match firstToken cmd with
  | none => []
  | some ft =>
    let base := afterLastSlash ft
    if base != cmd then [base] else []

/-- `ProcessTreeCache::collect_children`: descendant command strings of
`pid` up to `fuel` generations, full command then basename variant,
depth-first in table order. -/
def collectChildren : Nat → List (Nat × ProcessInfo) → Nat → List Str
  | 0, _, _ => []
  | fuel + 1, procs, pid =>
    procs.flatMap (fun e =>
      if e.2.parentPid == some pid then
        e.2.command :: (baseNameVariant e.2.command ++ collectChildren fuel procs e.1)
      else [])

/-! ## Pane model (src/tmux/pane.rs, src/tmux/client.rs) -/

/-- `PaneInfo`: one observed tmux pane. -/
structure PaneInfo where
  session : Str
  window : Nat
  windowName : Str
  pane : Nat
  command : Str
  title : Str
  path : Str
  pid : Nat
  cmdline : Str
  childCommands : List Str
deriving DecidableEq, Repr

/-- `PaneInfo::target`: `session:window.pane`. -/
def paneTarget (p : PaneInfo) : Str :=
  p.session ++ (":").data ++ (toString p.window).data ++ (".").data
    ++ (toString p.pane).data

/-- `PaneInfo::parse`: decompose one tab-separated listing line
(`session:window.pane  window_name  command  pid  title  path`),
returning `none` when fewer than six fields are present or the
pid / window / pane fields are not numeric. -/
def paneInfoParse (cache : ProcessTreeCache) (line : Str) : Option PaneInfo :=
  match splitOnCharStr '\t' line with
  | target :: windowName :: command :: pidStr :: title :: path :: _ =>
    match parseNatU U32_BOUND pidStr with
    | some pid =>
      match splitOnceChar ':' target with
      | some (session, rest) =>
        match splitOnceChar '.' rest with
        | some (windowStr, paneStr) =>
          match parseNatU U32_BOUND windowStr, parseNatU U32_BOUND paneStr with
          | some window, some pane =>
            some { session := session, window := window,
                   windowName := windowName, pane := pane,
                   command := command, title := title, path := path,
                   pid := pid,
                   cmdline := (cacheGetCmdline cache pid).getD [],
                   childCommands := collectChildren 2 cache.processes pid }
          | _, _ => none
        | none => none
      | none => none
    | none => none
  | _ => none

/-- One line of `TmuxClient::list_panes` filtering: split off the
`session_attached` flag and keep only attached (`"1"`) sessions. -/
def paneLineEntry (cache : ProcessTreeCache) (line : Str) : Option PaneInfo :=
  match splitOnceChar '\t' line with
  | none => none
  | some (attached, rest) =>
    if attached == ("1").data then paneInfoParse cache rest else none

/-- `TmuxClient::list_panes` parsing over an already-split listing. -/
def listPanesFromLines (cache : ProcessTreeCache) (ls : List Str) : List PaneInfo :=
  ls.filterMap (paneLineEntry cache)

/-- `TmuxClient::list_panes` parsing of the raw tmux stdout. -/
def list_panes (cache : ProcessTreeCache) (stdout : Str) : List PaneInfo :=
  listPanesFromLines cache (linesSplit stdout)

/-- `PaneInfo::detection_strings`: command, title, cmdline, then all
descendant command strings. -/
def detectionStrings (p : PaneInfo) : List Str :=
  p.command :: p.title :: p.cmdline :: p.childCommands

/-! ## Parser registry and `matches` heuristics (src/parsers) -/

/-- The four registered parsers, in registration order. -/
inductive ParserKind where
  | claude
  | opencode
  | codex
  | gemini
deriving DecidableEq, Repr

/-- `is_version_like` (src/parsers/claude_code.rs): digits and dots
only, at least one dot, first char a digit. -/
def is_version_like (s : Str) : Bool :=
  if s.isEmpty then false
  else
    let hasDot := s.contains '.'
    let allValid := s.all (fun c => c.isDigit || c == '.')
    hasDot && allValid && ((s.head?.map Char.isDigit).getD false)

/-- One detection string's signal for `ClaudeCodeParser::matches`:
name tokens, the ✳ icon, or a version-like command. -/
def claudeSignal (s : Str) : Bool :=
  let lower := toLowerStr s
  containsStr lower (("claude").data) || containsStr lower (("anthropic").data)
    || s.contains '✳' || is_version_like s

/-- One detection string's signal for `OpenCodeParser::matches`. -/
def opencodeSignal (s : Str) : Bool :=
  let lower := toLowerStr s
  containsStr lower (("opencode").data) || containsStr lower (("open-code").data)

/-- One detection string's signal for `CodexCliParser::matches`. -/
def codexSignal (s : Str) : Bool :=
  let lower := toLowerStr s
  containsStr lower (("codex").data) || containsStr lower (("openai").data)

/-- One detection string's signal for `GeminiCliParser::matches`. -/
def geminiSignal (s : Str) : Bool :=
  let lower := toLowerStr s
  containsStr lower (("gemini").data) || containsStr lower (("google").data)

/-- Per-parser detection signal. -/
def parserSignal : ParserKind → Str → Bool
  | .claude, s => claudeSignal s
  | .opencode, s => opencodeSignal s
  | .codex, s => codexSignal s
  | .gemini, s => geminiSignal s

/-- A parser's `matches` over a set of detection strings (`iter().any`). -/
def parserMatchesDS (k : ParserKind) (ds : List Str) : Bool :=
  ds.any (parserSignal k)

/-- The canonical name token of each tool. -/
def canonicalToken : ParserKind → Str
  | .claude => ("claude").data
  | .opencode => ("opencode").data
  | .codex => ("codex").data
  | .gemini => ("gemini").data

/-- `ParserRegistry::new`: registration order. -/
def registryOrder : List ParserKind :=
  [ParserKind.claude, ParserKind.opencode, ParserKind.codex, ParserKind.gemini]

/-- `ParserRegistry::find_parser_for_pane`: first registered parser
whose `matches` succeeds on the pane's detection strings. -/
def find_parser_for_pane (pane : PaneInfo) : Option ParserKind :=
  registryOrder.find? (fun p => parserMatchesDS p (detectionStrings pane))

/-! ## Claude Code parser: approval-prompt regexes
(src/parsers/claude_code.rs).  Each matcher hand-compiles the regex
given in its comment; `.` never matches a newline, `\s` may. -/

/-- Regex `.*?\?` at the current position: a `?` reachable through
non-newline characters. -/
def dotStarQ : Str → Bool
  | [] => false
  | c :: t => c == '?' || (!(c == '\n') && dotStarQ t)

/-- Regex `\s*.*?\?` at the current position. -/
def wsStarThenDotQ : Str → Bool
  | [] => false
  | c :: t => dotStarQ (c :: t) || (rustIsWs c && wsStarThenDotQ t)

/-- Regex `(kw1|kw2|...)\s+.*?\?` at the current position (keywords in
lowercase, matched case-insensitively). -/
def kwWsDotQAt (kws : List Str) (s : Str) : Bool :=
  kws.any (fun kw =>
    ciStarts kw s &&
      (match s.drop kw.length with
       | c :: t => rustIsWs c && wsStarThenDotQ t
       | [] => false))

/-- Regex `allow.*?X` at the current position (case-insensitive): since
`.` excludes newlines, `X` must occur on the same line. -/
def allowDotStarAt (target : Str) (s : Str) : Bool :=
  ciStarts (("allow").data) s
    && containsCI ((s.drop 5).takeWhile (fun c => c != '\n')) target

/-- Regex `(kw...)\s+(kw2...)` at the current position. -/
def kwWsKw2At (kws kws2 : List Str) (s : Str) : Bool :=
  kws.any (fun kw =>
    ciStarts kw s &&
      (match s.drop kw.length with
       | c :: t => rustIsWs c && kws2.any (fun k2 => ciStarts k2 (wsDrop t))
       | [] => false))

/-- Regex `Yes\s*/\s*No` (case-insensitive) at the current position. -/
def yesSlashNoAt (s : Str) : Bool :=
  ciStarts (("yes").data) s &&
    (match wsDrop (s.drop 3) with
     | '/' :: r => ciStarts (("no").data) (wsDrop r)
     | _ => false)

/-- Regex `\(Y\)es\s*/\s*\(N\)o` (case-insensitive) at the position. -/
def parenYesNoAt (s : Str) : Bool :=
  ciStarts (("(y)es").data) s &&
    (match wsDrop (s.drop 5) with
     | '/' :: r => ciStarts (("(n)o").data) (wsDrop r)
     | _ => false)

/-- `general_approval_pattern`:
`(?i)\[y/n\]|\[Y/n\]|\[yes/no\]|\(Y\)es\s*/\s*\(N\)o|Yes\s*/\s*No|y/n|Allow\?|Do you want to (allow|proceed|continue|run|execute)`
(the `\[Y/n\]` branch is the same as `\[y/n\]` under `(?i)`). -/
def generalApprovalMatch (s : Str) : Bool :=
  containsCI s (("[y/n]").data)
    || containsCI s (("[yes/no]").data)
    || anySuffix parenYesNoAt s
    || anySuffix yesSlashNoAt s
    || containsCI s (("y/n").data)
    || containsCI s (("allow?").data)
    || containsCI s (("do you want to allow").data)
    || containsCI s (("do you want to proceed").data)
    || containsCI s (("do you want to continue").data)
    || containsCI s (("do you want to run").data)
    || containsCI s (("do you want to execute").data)

/-- `file_edit_pattern`:
`(?i)(Edit|Write|Modify)\s+.*?\?|Do you want to (edit|write|modify)|Allow.*?edit`. -/
def fileEditMatch (s : Str) : Bool :=
  anySuffix (kwWsDotQAt [("edit").data, ("write").data, ("modify").data]) s
    || containsCI s (("do you want to edit").data)
    || containsCI s (("do you want to write").data)
    || containsCI s (("do you want to modify").data)
    || anySuffix (allowDotStarAt (("edit").data)) s

/-- `file_create_pattern`:
`(?i)Create\s+.*?\?|Do you want to create|Allow.*?create`. -/
def fileCreateMatch (s : Str) : Bool :=
  anySuffix (kwWsDotQAt [("create").data]) s
    || containsCI s (("do you want to create").data)
    || anySuffix (allowDotStarAt (("create").data)) s

/-- `file_delete_pattern`:
`(?i)Delete\s+.*?\?|Do you want to delete|Allow.*?delete`. -/
def fileDeleteMatch (s : Str) : Bool :=
  anySuffix (kwWsDotQAt [("delete").data]) s
    || containsCI s (("do you want to delete").data)
    || anySuffix (allowDotStarAt (("delete").data)) s

/-- `bash_pattern`:
`(?i)(Run|Execute)\s+(command|bash|shell)|Do you want to run|Allow.*?(command|bash)|run this command`. -/
def bashCmdMatch (s : Str) : Bool :=
  anySuffix (kwWsKw2At [("run").data, ("execute").data]
    [("command").data, ("bash").data, ("shell").data]) s
    || containsCI s (("do you want to run").data)
    || anySuffix (fun l => allowDotStarAt (("command").data) l
         || allowDotStarAt (("bash").data) l) s
    || containsCI s (("run this command").data)

/-- `mcp_pattern`: `(?i)MCP\s+tool|Do you want to use.*?MCP|Allow.*?MCP`. -/
def mcpMatch (s : Str) : Bool :=
  anySuffix (kwWsKw2At [("mcp").data] [("tool").data]) s
    || anySuffix (fun l => ciStarts (("do you want to use").data) l
         && containsCI ((l.drop 18).takeWhile (fun c => c != '\n')) (("mcp").data)) s
    || anySuffix (allowDotStarAt (("mcp").data)) s

/-! ## Claude Code parser: capture-extracting regexes -/

/-- Character class `[:\s]`. -/
def colonOrWs (c : Char) : Bool := c == ':' || rustIsWs c

/-- Regex `\w` (word character, ASCII part). -/
def isWordChar (c : Char) : Bool := c.isAlphanum || c == '_'

/-- Character class `[\w/.-]`. -/
def pathClassChar (c : Char) : Bool :=
  isWordChar c || c == '/' || c == '.' || c == '-'

/-- Try to place the `([^\s\n]+)` capture of `(?:file|path)[:\s]+([^\s\n]+)`
starting at offset `j` of `rest`, backing off greedily from `j` down to 1
(the separator run must keep at least one character). -/
def filePathB1Search (rest : Str) : Nat → Option Str
  | 0 => none
  | j + 1 =>
    let cap := (rest.drop (j + 1)).takeWhile (fun c => !(rustIsWs c))
    if cap.isEmpty then filePathB1Search rest j else some cap

/-- First branch of `extract_file_path`'s regex at the current position:
`(?:file|path)[:\s]+([^\s\n]+)` (case-sensitive). -/
def filePathBranch1At (s : Str) : Option Str :=
  if isPrefixStr (("file").data) s || isPrefixStr (("path").data) s then
    let rest := s.drop 4
    let k := (rest.takeWhile colonOrWs).length
    if k == 0 then none else filePathB1Search rest k
  else none

/-- Try the split `[\w/.-]+ = run[0..a) ++ "." ++ \w+` at dot position
`a` of `run` (greedy: callers try larger `a` first). -/
def filePathB2TryAt (c0 : Char) (run : Str) (a : Nat) : Option Str :=
  if a == 0 then none
  else
    match run.drop a with
    | '.' :: w :: _ =>
      if isWordChar w then
        some (c0 :: run.take a ++ '.' :: (run.drop (a + 1)).takeWhile isWordChar)
      else none
    | _ => none

/-- Greedy backoff over dot positions for the second branch. -/
def filePathB2Search (c0 : Char) (run : Str) : Nat → Option Str
  | 0 => none
  | a + 1 =>
    match filePathB2TryAt c0 run (a + 1) with
    | some r => some r
    | none => filePathB2Search c0 run a

/-- Second branch of `extract_file_path`'s regex at the current
position: `([./][\w/.-]+\.\w+)`. -/
def filePathBranch2At (s : Str) : Option Str :=
  match s with
  | c0 :: rest =>
    if c0 == '.' || c0 == '/' then
      let run := rest.takeWhile pathClassChar
      filePathB2Search c0 run (run.length - 1)
    else none
  | [] => none

/-- Leftmost-first scan for `extract_file_path`'s regex
`(?m)(?:file|path)[:\s]+([^\s\n]+)|([./][\w/.-]+\.\w+)`. -/
def filePathScan : Str → Option Str
  | [] => none
  | c :: t =>
    match filePathBranch1At (c :: t) with
    | some cap => some cap
    | none =>
      match filePathBranch2At (c :: t) with
      | some cap => some cap
      | none => filePathScan t

/-- `ClaudeCodeParser::extract_file_path`. -/
def extract_file_path (content : Str) : Option Str := filePathScan content

/-- First branch of `extract_command`'s regex at the current position:
a backquoted command after `(?:command|run)[:\s]+`. -/
def cmdBranch1At (s : Str) : Option Str :=
  let kwLen : Option Nat :=
    if isPrefixStr (("command").data) s then some 7
    else if isPrefixStr (("run").data) s then some 3
    else none
  match kwLen with
  | none => none
  | some n =>
    let rest := s.drop n
    let sep := rest.takeWhile colonOrWs
    if sep.isEmpty then none
    else
      match rest.drop sep.length with
      | c :: r =>
        if c == backtickChar then
          let cap := r.takeWhile (fun x => x != backtickChar)
          if cap.isEmpty then none
          else
            match r.drop cap.length with
            | d :: _ => if d == backtickChar then some cap else none
            | [] => none
        else none
      | [] => none

/-- Second branch of `extract_command`'s regex at the current position:
a triple-backquoted block with optional `bash`/`sh` tag, capturing the
body up to the closing fence. -/
def cmdBranch2At (s : Str) : Option Str :=
  let fence := [backtickChar, backtickChar, backtickChar]
  if isPrefixStr fence s then
    let afterFence := s.drop 3
    let body? : Option Str :=
      if isPrefixStr (("bash").data ++ ['\n']) afterFence then some (afterFence.drop 5)
      else if isPrefixStr (("sh").data ++ ['\n']) afterFence then some (afterFence.drop 3)
      else
        match afterFence with
        | '\n' :: r => some r
        | _ => none
    match body? with
    | none => none
    | some body =>
      let cap := body.takeWhile (fun x => x != backtickChar)
      if cap.isEmpty then none
      else if isPrefixStr fence (body.drop cap.length) then some cap
      else none
  else none

/-- Leftmost-first scan for `extract_command`'s regex. -/
def cmdScan : Str → Option Str
  | [] => none
  | c :: t =>
    match cmdBranch1At (c :: t) with
    | some cap => some cap
    | none =>
      match cmdBranch2At (c :: t) with
      | some cap => some cap
      | none => cmdScan t

/-- `ClaudeCodeParser::extract_command` (result is trimmed). -/
def extract_command (content : Str) : Option Str :=
  (cmdScan content).map trimStr

/-- The `(\d+)%` tail of the context regex at the current position:
maximal digit run directly followed by `%`. -/
def digitRunPct (s : Str) : Option Str :=
  let run := s.takeWhile Char.isDigit
  if run.isEmpty then none
  else
    match s.drop run.length with
    | '%' :: _ => some run
    | _ => none

/-- Scan `.*?(\d+)%` within the current line (a `.` never crosses a
newline): first digit run followed by `%`. -/
def scanLineForPct : Str → Option Str
  | [] => none
  | c :: t =>
    if c == '\n' then none
    else
      match digitRunPct (c :: t) with
      | some run => some run
      | none => scanLineForPct t

/-- `context_pattern` at the current position:
`(?i)Context\s+(?:left|remaining).*?(\d+)%`. -/
def contextMatchAt (s : Str) : Option Str :=
  if ciStarts (("context").data) s then
    match s.drop 7 with
    | c :: t =>
      if rustIsWs c then
        let r2 := wsDrop t
        if ciStarts (("left").data) r2 then scanLineForPct (r2.drop 4)
        else if ciStarts (("remaining").data) r2 then scanLineForPct (r2.drop 9)
        else none
      else none
    | [] => none
  else none

/-- Leftmost search for the context regex. -/
def contextSearch : Str → Option Str
  | [] => none
  | c :: t =>
    match contextMatchAt (c :: t) with
    | some r => some r
    | none => contextSearch t

/-- `ClaudeCodeParser::parse_status_context_remaining` behaviour
(`parse_context_remaining`): regex search over the last ~1000 chars,
parsing the captured percentage as a `u8`. -/
def parse_context_remaining (content : Str) : Option Nat :=
  let recent := safe_tail content 1000
  (contextSearch recent).bind (parseNatU U8_BOUND)

/-! ## Claude Code parser: yes/no button detection -/

/-- Does a (trimmed, not-skipped) line qualify as a Yes button?  Mirrors
the conditions of the loop body of `detect_yes_no_buttons`: skip rules
(empty, byte length > 50) plus the Yes shape and byte length < 40. -/
def yesCondLine (l : Str) : Bool :=
  let t := trimStr l
  !t.isEmpty && !(decide (50 < utf8Len t))
    && ((t == ("Yes").data || isPrefixStr (("Yes,").data) t
          || isPrefixStr (("Yes ").data) t)
        && decide (utf8Len t < 40))

/-- Does a line qualify as a No button (same structure)? -/
def noCondLine (l : Str) : Bool :=
  let t := trimStr l
  !t.isEmpty && !(decide (50 < utf8Len t))
    && ((t == ("No").data || isPrefixStr (("No,").data) t
          || isPrefixStr (("No ").data) t)
        && decide (utf8Len t < 40))

/-- One iteration of the `detect_yes_no_buttons` scan: record the
index of a Yes / No button line, keeping the last one seen (the skip
branch of the source loop — empty or over-50-byte lines — is absorbed
into `yesCondLine` / `noCondLine`, which both require it to fail). -/
def ynStep (l : Str) (idx : Nat) (st : Option Nat × Option Nat) :
    Option Nat × Option Nat :=
  (if yesCondLine l then some idx else st.1,
   if noCondLine l then some idx else st.2)

/-- The scanning loop of `detect_yes_no_buttons`. -/
def ynLoop : List Str → Nat → Option Nat × Option Nat → Option Nat × Option Nat
  | [], _, st => st
  | l :: rest, idx, st => ynLoop rest (idx + 1) (ynStep l idx st)

/-- `ClaudeCodeParser::detect_yes_no_buttons`: within the last 8 lines,
a Yes button line and a No button line at most 4 lines apart. -/
def detect_yes_no_buttons (lines : List Str) : Bool :=
  let checkLines := (lines.reverse).take 8
  match ynLoop checkLines 0 (none, none) with
  | (some y, some n) => decide ((if y > n then y - n else n - y) ≤ 4)
  | _ => false

/-! ## Claude Code parser: user-question extraction -/

/-- Is a line the last prompt marker (`extract_user_question`): trimmed
line starting with `❯`, or with `>` when shorter than 3 bytes. -/
def promptMarkerLine (l : Str) : Bool :=
  let t := trimStr l
  t.head? == some '❯' || (t.head? == some '>' && decide (utf8Len t < 3))

/-- Is this character one of the table-border (or decoration) glyphs
skipped by `extract_user_question`? -/
def borderGlyphChar (c : Char) : Bool :=
  c == '│' || c == '├' || c == '└' || c == '┌' || c == '─' || c == '✻'

/-- Does a trimmed line start with a table-border glyph? -/
def borderLine : Str → Bool
  | c :: _ => borderGlyphChar c
  | [] => false

/-- `choice_pattern` = `^\s*(\d+)\.\s+(.+)$` applied to a whole line:
returns the two captures (digit run, text after the whitespace).  The
`\s+` is greedy but backs off one character when `.+` would be empty. -/
def choicePatternParse (l : Str) : Option (Str × Str) :=
  let afterWs := l.dropWhile rustIsWs
  let digits := afterWs.takeWhile Char.isDigit
  if digits.isEmpty then none
  else
    match afterWs.drop digits.length with
    | '.' :: rest =>
      match rest with
      | c :: _ =>
        if rustIsWs c then
          let w := rest.takeWhile rustIsWs
          if w.length == rest.length then
            if decide (2 ≤ rest.length) then
              some (digits, rest.drop (rest.length - 1))
            else none
          else some (digits, rest.drop w.length)
        else none
      | [] => none
    | _ => none

/-- The choice number of a line: pattern capture 1 parsed as `u32`. -/
def choiceNumOf (l : Str) : Option Nat :=
  (choicePatternParse l).bind (fun p => parseNatU U32_BOUND p.1)

/-- Clean-up applied to capture 2 before storing a choice label:
trim, cut at a full-width parenthesis, trim again. -/
def uqLabelClean (c : Str) : Str :=
  trimStr ((trimStr c).takeWhile (fun ch => ch != '（'))

/-- The label a line contributes when accepted as a choice. -/
def uqLineLabel (l : Str) : Str :=
  match choicePatternParse l with
  | some (_, c) => uqLabelClean c
  | none => []

/-- State of the choice-collection loop of `extract_user_question`. -/
structure UQState where
  choices : List Str
  firstIdx : Option Nat
  lastIdx : Option Nat
deriving DecidableEq, Repr

/-- The empty collection state. -/
def uqInit : UQState := { choices := [], firstIdx := none, lastIdx := none }

/-- One iteration of the choice-collection loop of
`extract_user_question`: border glyphs reset a non-empty collection; a
sequential number extends it; a wrong number resets it; an oversized
non-choice line resets it. -/
def uqStep (line : Str) (i : Nat) (st : UQState) : UQState :=
  let t := trimStr line
  if borderLine t then
    if st.choices.isEmpty then st else uqInit
  else
    match choicePatternParse line with
    | some (digits, cap2) =>
      match parseNatU U32_BOUND digits with
      | some num =>
        if num == st.choices.length + 1 then
          { choices := st.choices ++ [uqLabelClean cap2],
            firstIdx := if st.firstIdx.isSome then st.firstIdx else some i,
            lastIdx := some i }
        else if !st.choices.isEmpty then uqInit
        else st
      | none => st
    | none =>
      if !st.choices.isEmpty then
        if !t.isEmpty && decide (30 < utf8Len t) then uqInit else st
      else st

/-- The choice-collection loop of `extract_user_question`. -/
def uqLoop : List Str → Nat → UQState → UQState
  | [], _, st => st
  | line :: rest, i, st => uqLoop rest (i + 1) (uqStep line i st)

/-- The backward question-text search of `extract_user_question`:
from the line above the first choice, scan upwards (at most 5 lines)
preferring a line containing a question mark, falling back to the
nearest non-empty line.  The counter argument is the number of lines
still to inspect; the inspected index is `count - 1`. -/
def questionBack (cl : List Str) (firstIdx : Nat) : Nat → Str → Str
  | 0, q => q
  | count + 1, q =>
    let j := count
    let prev := trimStr (cl.getD j [])
    if prev.isEmpty then questionBack cl firstIdx count q
    else if prev.getLast? == some '?' || prev.getLast? == some '？'
        || prev.contains '?' || prev.contains '？' then prev
    else
      let q2 := if q.isEmpty then prev else q
      if decide (5 < firstIdx - j) then q2
      else questionBack cl firstIdx count q2

/-- The scanned window of `extract_user_question`: the (at most 25)
lines before the last prompt marker. -/
def uqWindowOfLines (lines : List Str) : List Str :=
  let searchEnd := (lastIdxP promptMarkerLine lines 0).getD lines.length
  (lines.take searchEnd).drop (searchEnd - 25)

/-- `ClaudeCodeParser::extract_user_question`. -/
def extract_user_question (content : Str) : Option (List Str × Str) :=
  let lines := linesSplit content
  if lines.isEmpty then none
  else
    let checkLines := uqWindowOfLines lines
    if checkLines.isEmpty then none
    else
      let st := uqLoop checkLines 0 uqInit
      let tooFar :=
        match st.lastIdx with
        | some lastIdx => decide (8 < checkLines.length - lastIdx)
        | none => false
      if tooFar then none
      else
        let question :=
          match st.firstIdx with
          | some fi => questionBack checkLines fi fi []
          | none => []
        if decide (2 ≤ st.choices.length) then some (st.choices, question)
        else none

/-! ## Claude Code parser: detect_approval and parse_status -/

/-- The last 20 lines of a capture (`detect_approval`). -/
def recentLinesOf (content : Str) : List Str :=
  let lines := linesSplit content
  lines.drop (lines.length - 20)

/-- The last 20 lines re-joined (`recent_lines.join("\n")`). -/
def recentOf (content : Str) : Str := joinNl (recentLinesOf content)

/-- The approval-kind classification of `detect_approval` (runs once a
button / text signal fired): ordered category regexes over the last
~1500 chars, with best-effort detail extraction. -/
def detectApprovalKind (content : Str) : ApprovalType × Str :=
  let context := safe_tail content 1500
  if fileEditMatch context then
    (ApprovalType.fileEdit, (extract_file_path context).getD [])
  else if fileCreateMatch context then
    (ApprovalType.fileCreate, (extract_file_path context).getD [])
  else if fileDeleteMatch context then
    (ApprovalType.fileDelete, (extract_file_path context).getD [])
  else if bashCmdMatch context then
    (ApprovalType.shellCommand, (extract_command context).getD [])
  else if mcpMatch context then
    (ApprovalType.mcpTool, ("MCP tool call").data)
  else
    (ApprovalType.other (("Pending approval").data), [])

/-- `ClaudeCodeParser::detect_approval`. -/
def detect_approval (content : Str) : Option (ApprovalType × Str) :=
  let lines := linesSplit content
  if lines.isEmpty then none
  else
    let recentLines := recentLinesOf content
    let recent := recentOf content
    let uqHit : Option (ApprovalType × Str) :=
      match extract_user_question recent with
      | some (choices, question) =>
        if !choices.isEmpty then
          some (ApprovalType.userQuestion choices false, question)
        else none
      | none => none
    match uqHit with
    | some r => some r
    | none =>
      let hasYesNoButtons := detect_yes_no_buttons recentLines
      let lastLines := (recentLines.reverse).take 10
      let lastText := joinNl lastLines
      let hasTextApproval := generalApprovalMatch lastText
      if !hasYesNoButtons && !hasTextApproval then none
      else some (detectApprovalKind content)

/-- `ClaudeCodeParser::parse_status`: approval prompts first, otherwise
Unknown on an all-whitespace capture and Idle otherwise. -/
def parse_status (content : Str) : AgentStatus :=
  match detect_approval content with
  | some (t, d) => AgentStatus.awaitingApproval t d
  | none =>
    if (trimStr content).isEmpty then AgentStatus.unknown else AgentStatus.idle

/-! ## Monitor task (src/monitor/task.rs) -/

/-- `STATUS_HYSTERESIS_MS`: grace window in milliseconds. -/
def STATUS_HYSTERESIS_MS : Nat := 2000

/-- Insert into the hysteresis map (`HashMap::insert`). -/
def lastActiveInsert (m : Str → Option Nat) (target : Str) (v : Nat) :
    Str → Option Nat :=
  fun x => if x = target then some v else m x

/-- Is a status "active" for hysteresis purposes? -/
def statusIsActive : AgentStatus → Bool
  | .processing _ => true
  | .awaitingApproval _ _ => true
  | _ => false

/-- The hysteresis fragment of `MonitorTask::poll_tmux_agents`
(lines 312–329): active statuses stamp the last-active map; an Idle
status within the grace window of the stamp is overridden to a generic
Processing; other statuses pass through. -/
def applyHysteresis (lastActive : Str → Option Nat) (target : Str)
    (now : Nat) (status : AgentStatus) :
    AgentStatus × (Str → Option Nat) :=
  if statusIsActive status then
    (status, lastActiveInsert lastActive target now)
  else if status == AgentStatus.idle then
    match lastActive target with
    | some last =>
      if now - last < STATUS_HYSTERESIS_MS then
        (AgentStatus.processing (("Working...").data), lastActive)
      else (status, lastActive)
    | none => (status, lastActive)
  else (status, lastActive)

/-- Saturating successor on `u32` (`u32::saturating_add(1)`). -/
def satSuccU32 (n : Nat) : Nat := min (n + 1) (U32_BOUND - 1)

/-- The backoff window: `2^min(failCount, 5)` polls. -/
def backoffPolls (failCount : Nat) : Nat := 2 ^ min failCount 5

/-- The API attempt guard of `MonitorTask::poll_all` (lines 193–202):
try when no failures are recorded, or when the poll index (wall-clock
milliseconds divided by the poll interval) is a multiple of the
backoff window. -/
def shouldTryApi (failCount pollIndex : Nat) : Bool :=
  failCount == 0 || pollIndex % backoffPolls failCount == 0

/-- The per-cycle orchestrator state relevant to backoff. -/
structure OrchState where
  apiFailCount : Nat
  wasConnected : Bool
deriving DecidableEq, Repr

/-- One poll cycle's effect on the backoff state (`poll_all` failure
accounting plus the reset in `run`, lines 122–132): returns the new
state and whether the remote API was attempted.  `fetchOk` is the
outcome the API would give when attempted. -/
def orchPollCycle (s : OrchState) (pollIndex : Nat) (fetchOk : Bool) :
    OrchState × Bool :=
  let attempted := shouldTryApi s.apiFailCount pollIndex
  let failAfter :=
    if attempted then
      if fetchOk then s.apiFailCount else satSuccU32 s.apiFailCount
    else s.apiFailCount
  let connected := attempted && fetchOk
  let failFinal := if connected && !s.wasConnected then 0 else failAfter
  ({ apiFailCount := failFinal, wasConnected := connected }, attempted)

/-- Run a trace of poll cycles, collecting the poll indices at which
the remote API was attempted. -/
def orchRun (s : OrchState) : List (Nat × Bool) → OrchState × List Nat
  | [] => (s, [])
  | (idx, ok) :: rest =>
    let step := orchPollCycle s idx ok
    let tail := orchRun step.1 rest
    (tail.1, if step.2 then idx :: tail.2 else tail.2)

/-! ## Remote agents, merge and sort (src/monitor/task.rs, src/agentos.rs) -/

/-- `MonitoredAgent` (src/agents/types.rs), restricted to the fields
set by the monitor (`Instant` timestamps, subagents and the raw capture
are orthogonal to merging and ordering and are omitted). -/
structure MonitoredAgent where
  id : Str
  target : Str
  session : Str
  window : Nat
  windowName : Str
  pane : Nat
  path : Str
  agentType : AgentType
  status : AgentStatus
  pid : Nat
  branch : Option Str
deriving DecidableEq, Repr

/-- `AgentOSPane` (src/agentos.rs), restricted to the fields read by
`pane_to_agent` and the merge filter. -/
structure AgentOSPane where
  pane : Nat
  theme : Str
  status : Str
  project : Str
  task : Str
  branch : Option Str
  workspace : Option Str
  ptyRunning : Bool
deriving DecidableEq, Repr

/-- `AgentOSClient::pane_to_agent`: convert a remote API pane record
into a `MonitoredAgent` (tool type is always Claude Code). -/
def pane_to_agent (p : AgentOSPane) : MonitoredAgent :=
  let status :=
    if p.status == ("active").data && p.ptyRunning then
      AgentStatus.processing p.task
    else if p.status == ("active").data then AgentStatus.idle
    else if p.status == ("idle").data then AgentStatus.idle
    else AgentStatus.unknown
  let sessionName := ("agentos-").data ++ toLowerStr p.theme
  let windowName :=
    if p.project != ("--").data then p.project
    else ("pane-").data ++ (toString p.pane).data
  { id := ("agentos-").data ++ (toString p.pane).data,
    target := ("agentos:").data ++ (toString p.pane).data ++ (":").data
      ++ toLowerStr p.theme,
    session := sessionName,
    window := 0,
    windowName := windowName,
    pane := p.pane,
    path := (p.workspace).getD p.project,
    agentType := AgentType.claudeCode,
    status := status,
    pid := 0,
    branch := p.branch }

/-- The merge loop of `MonitorTask::poll_all` (lines 209–227): append
each remote pane that has a real project or is active, unless an agent
with the same working directory and tool type is already present. -/
def mergeRemotePanes (rootAgents : List MonitoredAgent)
    (panes : List AgentOSPane) : List MonitoredAgent :=
  panes.foldl (fun tree pane =>
    let hasProject := pane.project != ("--").data && !pane.project.isEmpty
    let isActive := pane.ptyRunning || pane.status == ("active").data
    if hasProject || isActive then
      let agent := pane_to_agent pane
      let alreadyExists := tree.any (fun a =>
        a.path == agent.path && a.agentType == agent.agentType)
      if alreadyExists then tree else tree ++ [agent]
    else tree) rootAgents

/-- The target ordering used by `sort_by(|a, b| a.target.cmp(&b.target))`. -/
def targetLe (a b : MonitoredAgent) : Prop := a.target ≤ b.target

instance : DecidableRel targetLe := fun a b => by
  unfold targetLe; infer_instance

instance : IsTotal MonitoredAgent targetLe :=
  ⟨fun a b => le_total a.target b.target⟩

instance : IsTrans MonitoredAgent targetLe :=
  ⟨fun _ _ _ h h2 => le_trans h h2⟩

/-- The final sort of `poll_all`: a stable sort by target string
(Rust `sort_by` is a stable merge sort; a stable insertion sort
produces the identical list). -/
def sortAgents (l : List MonitoredAgent) : List MonitoredAgent :=
  List.insertionSort targetLe l

/-- Boolean check that consecutive agents are in target order. -/
def targetsSorted : List MonitoredAgent → Bool
  | [] => true
  | [_] => true
  | a :: b :: t => decide (a.target ≤ b.target) && targetsSorted (b :: t)

/-- The result of one `poll_all` invocation. -/
structure PollResult where
  agents : List MonitoredAgent
  queueTasks : List Str
  connected : Bool
  failCount : Nat
deriving DecidableEq, Repr

/-- `MonitorTask::poll_all` (lines 184–253) with its effects made
explicit: `locals` is the tree from `poll_tmux_agents`, `hasClient`
whether an AgentOS client is configured, `fetchPanesRes` /
`fetchQueueRes` the outcomes the two API calls would produce (`none`
models an `Err`).  Note the early return on the backoff path skips the
final sort. -/
def poll_all (locals : List MonitoredAgent) (hasClient : Bool)
    (failCount pollIndex : Nat) (fetchPanesRes : Option (List AgentOSPane))
    (fetchQueueRes : Option (List Str)) : PollResult :=
  if hasClient then
    if !(shouldTryApi failCount pollIndex) then
      { agents := locals, queueTasks := [], connected := false,
        failCount := failCount }
    else
      let afterPanes :=
        match fetchPanesRes with
        | some panes => (mergeRemotePanes locals panes, true, failCount)
        | none => (locals, false, satSuccU32 failCount)
      let queueTasks := fetchQueueRes.getD []
      { agents := sortAgents afterPanes.1, queueTasks := queueTasks,
        connected := afterPanes.2.1, failCount := afterPanes.2.2 }
  else
    { agents := sortAgents locals, queueTasks := [], connected := false,
      failCount := failCount }

/-- Key-equality count used to state the merge/dedup claim: number of
agents with the given working directory and tool type. -/
def countKeyAgents (l : List MonitoredAgent) (p : Str) (ty : AgentType) : Nat :=
  (l.filter (fun a => a.path == p && a.agentType == ty)).length

/-! ## Auxiliary definitions used in claim statements -/

/-- Last index of a matching line, with a default: the value a
last-match-recording fold leaves when started from `d`. -/
def lastOrD (p : Str → Bool) (cl : List Str) (i : Nat) (d : Option Nat) :
    Option Nat :=
  match lastIdxP p cl i with
  | some j => some j
  | none => d

instance parserKindAllDec (p : ParserKind → Prop) [DecidablePred p] :
    Decidable (∀ u, p u) :=
  decidable_of_iff (p .claude ∧ p .opencode ∧ p .codex ∧ p .gemini)
    (by
      constructor
      · rintro ⟨h1, h2, h3, h4⟩ u
        cases u <;> assumption
      · intro h
        exact ⟨h _, h _, h _, h _⟩)

/-- A capture with a question line, a clean two-choice block and an
active prompt. -/
def c1GoodCapture : Str := ("Which option?\n1. foo\n2. bar\n❯ ").data

/-- A capture whose numbering is non-sequential (1 then 3) before a
fresh sequential block restarts at 1. -/
def c1BadCapture : Str := ("1. a\n3. b\n1. c\n2. d\n❯ ").data

/-- A capture whose last 8 lines hold a Yes line (twice) and a No
line; the earliest Yes and the No are 7 lines apart, but the later Yes
is within 4 lines of the No. -/
def c2BadCapture : Str := ("Yes\nx\nx\nx\nx\nYes\nx\nNo").data

/-- A capture with adjacent Yes / No button lines. -/
def c2GoodCapture : Str := ("Proceed?\n  Yes\n  No").data

/-- The prose negative control of the claim. -/
def c2ControlCapture : Str :=
  ("The answer is Yes or No depending on context.\n❯ ").data

/-- A capture advertising 150% context left. -/
def c10BadCapture : Str := ("Context left until auto-compact: 150%").data

/-- A capture advertising 42% context left. -/
def c10GoodCapture : Str := ("Context left: 42%").data

/-- A local (pane-derived) agent at path `/a`, target `a:0.0`. -/
def agentA : MonitoredAgent :=
  { id := ("a").data, target := ("a:0.0").data, session := ("a").data,
    window := 0, windowName := [], pane := 0, path := ("/a").data,
    agentType := AgentType.claudeCode, status := AgentStatus.idle,
    pid := 1, branch := none }

/-- A local (pane-derived) agent at path `/b`, target `b:0.0`. -/
def agentB : MonitoredAgent :=
  { id := ("b").data, target := ("b:0.0").data, session := ("b").data,
    window := 0, windowName := [], pane := 0, path := ("/b").data,
    agentType := AgentType.claudeCode, status := AgentStatus.idle,
    pid := 2, branch := none }

/-- A remote API pane whose workspace collides with `agentA`'s path. -/
def remotePaneA : AgentOSPane :=
  { pane := 1, theme := ("x").data, status := ("active").data,
    project := ("/a").data, task := [], branch := none,
    workspace := some (("/a").data), ptyRunning := true }

/-- Sample `ps` output with a single process. -/
def psOutSample : Str := ("1 0 init").data

/-- A cache refreshed at time 0 holding an empty table. -/
def cacheZero : ProcessTreeCache := { processes := [], lastUpdate := 0 }

/-! ## Helper lemmas -/

/-- A digit is not whitespace. -/
theorem digit_not_ws (c : Char) (h : c.isDigit = true) : rustIsWs c = false := by
  unfold rustIsWs
  by_contra hw
  rw [Bool.not_eq_false] at hw
  simp [Char.isWhitespace] at hw
  rcases hw with ((rfl | rfl) | rfl) | rfl <;> exact absurd h (by decide)

/-- Right trim keeps a non-whitespace head. -/
theorem rtrimStr_cons_of_not_ws (c : Char) (t : Str) (h : rustIsWs c = false) :
    rtrimStr (c :: t) = c :: rtrimStr t := by
  simp [rtrimStr, h]

/-- A digit is not a table-border glyph. -/
theorem digit_not_glyph (d : Char) (h : d.isDigit = true) :
    borderGlyphChar d = false := by
  have hne : ∀ g : Char, g.isDigit = false → (d == g) = false := by
    intro g hg
    rw [beq_eq_false_iff_ne]
    rintro rfl
    rw [h] at hg
    simp at hg
  unfold borderGlyphChar
  rw [hne '│' (by decide), hne '├' (by decide), hne '└' (by decide),
    hne '┌' (by decide), hne '─' (by decide), hne '✻' (by decide)]
  rfl

/-- A line matching the choice pattern starts (after leading
whitespace) with a digit. -/
theorem choiceParse_head_digit (l : Str) (p : Str × Str)
    (h : choicePatternParse l = some p) :
    ∃ d rest, l.dropWhile rustIsWs = d :: rest ∧ d.isDigit = true := by
  unfold choicePatternParse at h
  cases hws : l.dropWhile rustIsWs with
  | nil => rw [hws] at h; simp at h
  | cons d rest =>
    rw [hws] at h
    by_cases hd : d.isDigit = true
    · exact ⟨d, rest, rfl, hd⟩
    · rw [Bool.not_eq_true] at hd
      simp [List.takeWhile_cons, hd] at h

/-- A line matching the choice pattern is not a border line. -/
theorem choiceParse_not_border (l : Str) (p : Str × Str)
    (h : choicePatternParse l = some p) : borderLine (trimStr l) = false := by
  obtain ⟨d, rest, hws, hd⟩ := choiceParse_head_digit l p h
  unfold trimStr
  rw [hws, rtrimStr_cons_of_not_ws d rest (digit_not_ws d hd)]
  simp [borderLine, digit_not_glyph d hd]

/-- A successful bounded parse is below the bound. -/
theorem parseNatU_lt (b : Nat) (s : Str) (v : Nat)
    (h : parseNatU b s = some v) : v < b := by
  unfold parseNatU at h
  cases hc : (match s with | '+' :: rest => parseNatDigits rest | _ => parseNatDigits s) with
  | none => rw [hc] at h; simp at h
  | some n =>
    rw [hc] at h
    simp only [Option.some_bind] at h
    by_cases hb : n < b
    · rw [if_pos hb] at h
      cases h
      exact hb
    · rw [if_neg hb] at h
      simp at h

/-! ## Claim C3: hysteresis -/

/-- C3: a Processing classification at t=0 stamps the last-active map;
an Idle classification at t=1000 (inside the 2000ms grace window) is
reported as Processing with the map unchanged; a further Idle
classification at t=2500 is reported as Idle. -/
theorem c3_hysteresis (m : Str → Option Nat) (target activity : Str) :
    applyHysteresis m target 0 (AgentStatus.processing activity) =
      (AgentStatus.processing activity, lastActiveInsert m target 0) ∧
    applyHysteresis (lastActiveInsert m target 0) target 1000 AgentStatus.idle =
      (AgentStatus.processing (("Working...").data), lastActiveInsert m target 0) ∧
    applyHysteresis (lastActiveInsert m target 0) target 2500 AgentStatus.idle =
      (AgentStatus.idle, lastActiveInsert m target 0) := by
  refine ⟨rfl, ?_, ?_⟩
  · unfold applyHysteresis statusIsActive lastActiveInsert STATUS_HYSTERESIS_MS
    simp
  · unfold applyHysteresis statusIsActive lastActiveInsert STATUS_HYSTERESIS_MS
    simp

/-! ## Claim C4: exponential backoff -/

/-- A failed cycle never lowers the failure counter below 3. -/
theorem orchCycle_fail_persists (s : OrchState) (idx : Nat)
    (h : 3 ≤ s.apiFailCount) :
    3 ≤ ((orchPollCycle s idx false).1).apiFailCount := by
  by_cases hatt : shouldTryApi s.apiFailCount idx = true
  · simp [orchPollCycle, satSuccU32, U32_BOUND, hatt]
    omega
  · rw [Bool.not_eq_true] at hatt
    simp [orchPollCycle, satSuccU32, hatt]
    omega

/-- C4: with the failure counter at 3 or above, the API is attempted
only on poll indices that are multiples of 8 (hence at most once per 8
polls: two distinct attempt indices are at least 8 apart); in general a
nonzero counter gates attempts on multiples of `2^min(count,5)`; along
any all-failing trace from a counter ≥ 3 every attempted index is a
multiple of 8; and an attempted successful fetch resets the counter. -/
theorem c4_backoff :
    (∀ fail idx, 3 ≤ fail → shouldTryApi fail idx = true → idx % 8 = 0) ∧
    (∀ fail i j, 3 ≤ fail → shouldTryApi fail i = true →
      shouldTryApi fail j = true → i ≠ j → 8 ≤ (if i > j then i - j else j - i)) ∧
    (∀ fail idx, fail ≠ 0 →
      (shouldTryApi fail idx = true ↔ idx % 2 ^ min fail 5 = 0)) ∧
    (∀ (s : OrchState) (trace : List (Nat × Bool)), 3 ≤ s.apiFailCount →
      (∀ e ∈ trace, e.2 = false) → ∀ idx ∈ (orchRun s trace).2, idx % 8 = 0) ∧
    (∀ fail idx, shouldTryApi fail idx = true →
      ((orchPollCycle ⟨fail, false⟩ idx true).1).apiFailCount = 0) := by
  have key : ∀ fail idx, 3 ≤ fail → shouldTryApi fail idx = true → idx % 8 = 0 := by
    intro fail idx h3 ht
    unfold shouldTryApi at ht
    have h0 : (fail == 0) = false := by
      rw [beq_eq_false_iff_ne]
      omega
    rw [h0, Bool.false_or] at ht
    have hmod : idx % backoffPolls fail = 0 := by
      simpa using ht
    have hdvd8 : (8 : Nat) ∣ backoffPolls fail := by
      unfold backoffPolls
      have h35 : 3 ≤ min fail 5 := le_min h3 (by norm_num)
      calc (8 : Nat) = 2 ^ 3 := by norm_num
        _ ∣ 2 ^ min fail 5 := pow_dvd_pow 2 h35
    have hdix : backoffPolls fail ∣ idx := Nat.dvd_of_mod_eq_zero hmod
    obtain ⟨q, rfl⟩ := hdvd8.trans hdix
    exact Nat.mul_mod_right 8 q
  refine ⟨key, ?_, ?_, ?_, ?_⟩
  · intro fail i j h3 hi hj hne
    have h1 := key fail i h3 hi
    have h2 := key fail j h3 hj
    split <;> omega
  · intro fail idx h0
    unfold shouldTryApi backoffPolls
    have hb : (fail == 0) = false := by
      rw [beq_eq_false_iff_ne]
      exact h0
    rw [hb, Bool.false_or]
    constructor
    · intro h
      simpa using h
    · intro h
      simp [h]
  · intro s trace
    induction trace generalizing s with
    | nil =>
      intro _ _ idx hidx
      simp [orchRun] at hidx
    | cons e rest ih =>
      intro h3 hall idx hidx
      obtain ⟨eidx, eok⟩ := e
      have heok : eok = false := hall (eidx, eok) (by simp)
      subst heok
      simp only [orchRun] at hidx
      by_cases hatt : (orchPollCycle s eidx false).2 = true
      · rw [hatt, if_pos rfl] at hidx
        rcases List.mem_cons.mp hidx with rfl | htail
        · have hshould : shouldTryApi s.apiFailCount idx = true := by
            simpa [orchPollCycle] using hatt
          exact key s.apiFailCount idx h3 hshould
        · exact ih (orchPollCycle s eidx false).1 (orchCycle_fail_persists s eidx h3)
            (fun x hx => hall x (by simp [hx])) idx htail
      · rw [Bool.not_eq_true] at hatt
        rw [hatt] at hidx
        simp only [Bool.false_eq_true, if_false] at hidx
        exact ih (orchPollCycle s eidx false).1 (orchCycle_fail_persists s eidx h3)
          (fun x hx => hall x (by simp [hx])) idx hidx
  · intro fail idx h
    simp [orchPollCycle, h]


/-- Witness for C4: with the counter at 3, poll index 8 is attempted
and is a multiple of 8. -/
theorem c4_witness : (8 : Nat) % 8 = 0 ∧ shouldTryApi 3 8 = true :=
  ⟨c4_backoff.1 3 8 (by norm_num) (by decide), by decide⟩

/-! ## Claim C7: process-cache refresh rate limit -/

/-- C7 (amended): a refresh call at most 500ms after the last update
is a no-op (table and timestamp unchanged, no OS query consumed); a
call strictly more than 500ms after performs the query — replacing the
snapshot and timestamp on success, and leaving the cache intact when
the OS query fails. -/
theorem c7_refresh_rate_limit (c : ProcessTreeCache) (now : Nat)
    (out : Option Str) :
    (now - c.lastUpdate ≤ 500 → refresh_process_cache c now out = c) ∧
    (500 < now - c.lastUpdate →
      refresh_process_cache c now out = cacheRefreshApply c now out ∧
      (out = none → refresh_process_cache c now out = c) ∧
      (∀ stdout, out = some stdout →
        refresh_process_cache c now out =
          { processes := (linesSplit stdout).filterMap parsePsLine,
            lastUpdate := now })) := by
  constructor
  · intro h
    unfold refresh_process_cache needsRefresh
    simp [Nat.not_lt.mpr h]
  · intro h
    have hc : needsRefresh c now = true := by
      unfold needsRefresh
      simpa using h
    have hmain : refresh_process_cache c now out = cacheRefreshApply c now out := by
      unfold refresh_process_cache
      rw [hc]
      simp
    refine ⟨hmain, ?_, ?_⟩
    · rintro rfl
      rw [hmain]
      rfl
    · rintro stdout rfl
      rw [hmain]
      rfl

/-- Counterexample for C7 as stated: two calls separated by exactly
500ms (the claim's "at least 500ms" case).  The second call is a no-op
even though a query would have replaced the snapshot. -/
theorem c7_counterexample :
    refresh_process_cache cacheZero 500 (some psOutSample) = cacheZero ∧
    cacheRefreshApply cacheZero 500 (some psOutSample) ≠ cacheZero := by
  constructor
  · rfl
  · decide

/-- Witness for C7: 400ms elapsed is a no-op; 501ms elapsed replaces
the snapshot and timestamp. -/
theorem c7_witness :
    refresh_process_cache cacheZero 400 (some psOutSample) = cacheZero ∧
    refresh_process_cache cacheZero 501 (some psOutSample) =
      { processes := (linesSplit psOutSample).filterMap parsePsLine,
        lastUpdate := 501 } :=
  ⟨(c7_refresh_rate_limit cacheZero 400 (some psOutSample)).1 (by decide),
   ((c7_refresh_rate_limit cacheZero 501 (some psOutSample)).2 (by decide)).2.2
     psOutSample rfl⟩

/-! ## Claim C10: context-remaining extraction -/

/-- C10 (amended): the extracted context percentage is the `u8` parse
of the digits captured after a "context left/remaining" phrase in the
final ~1000 characters, so any returned value is at most 255 (not 100);
when the regex finds nothing in that tail the result is `none`. -/
theorem c10_context_remaining (content : Str) :
    (∀ v, parse_context_remaining content = some v → v ≤ 255) ∧
    (contextSearch (safe_tail content 1000) = none →
      parse_context_remaining content = none) := by
  constructor
  · intro v hv
    simp only [parse_context_remaining] at hv
    cases hs : contextSearch (safe_tail content 1000) with
    | none => rw [hs] at hv; simp at hv
    | some run =>
      rw [hs] at hv
      simp only [Option.some_bind] at hv
      have := parseNatU_lt U8_BOUND run v hv
      unfold U8_BOUND at this
      omega
  · intro h
    simp only [parse_context_remaining]
    rw [h]
    rfl

/-- Counterexample for C10 as stated: a capture advertising 150%
context left parses to 150, outside the claimed 0–100 range. -/
theorem c10_counterexample :
    parse_context_remaining c10BadCapture = some 150 ∧ ¬(150 ≤ 100) := by
  constructor
  · rfl
  · decide

/-- Witness for C10: a 42% capture parses to 42 ≤ 255. -/
theorem c10_witness :
    parse_context_remaining c10GoodCapture = some 42 ∧ 42 ≤ 255 :=
  ⟨by rfl, (c10_context_remaining c10GoodCapture).1 42 (by rfl)⟩

/-! ## Claim C5: parser matching and registry order -/

/-- A detection string containing a tool's canonical token (after
lowercasing) triggers that tool's signal. -/
theorem token_signal (t : ParserKind) (s : Str)
    (h : containsStr (toLowerStr s) (canonicalToken t) = true) :
    parserSignal t s = true := by
  cases t <;>
    simp only [canonicalToken] at h <;>
    simp [parserSignal, claudeSignal, opencodeSignal, codexSignal,
      geminiSignal, h]

/-- C5 (amended): a detection-string set containing a tool's canonical
name token — and no string carrying another tool's detection signal
(name token, alias, the ✳ icon, or a version-like string) — matches
exactly that tool's parser; and `find_parser_for_pane` tries the four
parsers in registration order, returning the first match or `none`. -/
theorem c5_matches_and_registry :
    (∀ (t : ParserKind) (ds : List Str),
      (∃ s ∈ ds, containsStr (toLowerStr s) (canonicalToken t) = true) →
      (∀ s ∈ ds, ∀ u : ParserKind, u ≠ t → parserSignal u s = false) →
      parserMatchesDS t ds = true ∧
        ∀ u : ParserKind, u ≠ t → parserMatchesDS u ds = false) ∧
    (∀ pane : PaneInfo,
      find_parser_for_pane pane =
        (if parserMatchesDS ParserKind.claude (detectionStrings pane) then
          some ParserKind.claude
         else if parserMatchesDS ParserKind.opencode (detectionStrings pane) then
          some ParserKind.opencode
         else if parserMatchesDS ParserKind.codex (detectionStrings pane) then
          some ParserKind.codex
         else if parserMatchesDS ParserKind.gemini (detectionStrings pane) then
          some ParserKind.gemini
         else none)) := by
  constructor
  · rintro t ds ⟨s, hmem, hcont⟩ hothers
    constructor
    · unfold parserMatchesDS
      rw [List.any_eq_true]
      exact ⟨s, hmem, token_signal t s hcont⟩
    · intro u hu
      unfold parserMatchesDS
      rw [List.any_eq_false]
      intro x hx
      simp [hothers x hx u hu]
  · intro pane
    unfold find_parser_for_pane registryOrder
    cases h1 : parserMatchesDS ParserKind.claude (detectionStrings pane) <;>
      cases h2 : parserMatchesDS ParserKind.opencode (detectionStrings pane) <;>
      cases h3 : parserMatchesDS ParserKind.codex (detectionStrings pane) <;>
      cases h4 : parserMatchesDS ParserKind.gemini (detectionStrings pane) <;>
      simp [List.find?, h1, h2, h3, h4]

/-- Counterexample for C5 as stated: the detection set
`["codex", "1.0"]` contains exactly one tool's canonical token (codex),
yet the Claude parser's `matches` also returns true, via its
version-number heuristic. -/
theorem c5_counterexample :
    (∃ s ∈ [("codex").data, ("1.0").data],
      containsStr (toLowerStr s) (canonicalToken ParserKind.codex) = true) ∧
    (∀ u : ParserKind, u ≠ ParserKind.codex →
      ∀ s ∈ [("codex").data, ("1.0").data],
        containsStr (toLowerStr s) (canonicalToken u) = false) ∧
    parserMatchesDS ParserKind.claude [("codex").data, ("1.0").data] = true := by
  refine ⟨?_, ?_, ?_⟩
  · decide
  · decide
  · decide

/-- Witness for C5: the sole string "claude" matches the Claude parser
and not the Gemini parser. -/
theorem c5_witness :
    parserMatchesDS ParserKind.claude [("claude").data] = true ∧
    parserMatchesDS ParserKind.gemini [("claude").data] = false := by
  have h := c5_matches_and_registry.1 ParserKind.claude [("claude").data]
    (by decide) (by decide)
  exact ⟨h.1, h.2 ParserKind.gemini (by decide)⟩

/-! ## Claim C6: merge and dedup of remote agents -/

/-- The merge loop only ever appends, and every appended remote agent
has a (path, tool-type) key distinct from every agent of the starting
tree and from every other appended agent. -/
theorem mergeRemotePanes_decomp :
    ∀ (panes : List AgentOSPane) (acc : List MonitoredAgent),
    ∃ extras, mergeRemotePanes acc panes = acc ++ extras ∧
      (∀ a ∈ extras, ∀ l ∈ acc,
        ¬(l.path = a.path ∧ l.agentType = a.agentType)) ∧
      extras.Pairwise (fun a b => ¬(a.path = b.path ∧ a.agentType = b.agentType)) := by
  intro panes
  induction panes with
  | nil =>
    intro acc
    exact ⟨[], by simp [mergeRemotePanes], by simp, List.Pairwise.nil⟩
  | cons pane rest ih =>
    intro acc
    have hfold : mergeRemotePanes acc (pane :: rest) =
        mergeRemotePanes
          (if (pane.project != ("--").data && !pane.project.isEmpty)
              || (pane.ptyRunning || pane.status == ("active").data) then
            (if acc.any (fun a => a.path == (pane_to_agent pane).path
                && a.agentType == (pane_to_agent pane).agentType) then acc
             else acc ++ [pane_to_agent pane])
          else acc) rest := by
      rfl
    by_cases hc : ((pane.project != ("--").data && !pane.project.isEmpty)
        || (pane.ptyRunning || pane.status == ("active").data)) = true
    · by_cases hex : (acc.any (fun a => a.path == (pane_to_agent pane).path
          && a.agentType == (pane_to_agent pane).agentType)) = true
      · rw [hfold, if_pos hc, if_pos hex]
        exact ih acc
      · rw [Bool.not_eq_true] at hex
        rw [hfold, if_pos hc, hex]
        simp only [Bool.false_eq_true, if_false]
        obtain ⟨extras2, heq, hdisj, hpw⟩ := ih (acc ++ [pane_to_agent pane])
        refine ⟨pane_to_agent pane :: extras2, ?_, ?_, ?_⟩
        · rw [heq, List.append_assoc]
          rfl
        · intro a ha l hl
          rcases List.mem_cons.mp ha with rfl | ha2
          · have := List.any_eq_false.mp hex l hl
            rintro ⟨hp, ht⟩
            simp [hp, ht] at this
          · exact hdisj a ha2 l (List.mem_append_left _ hl)
        · refine List.Pairwise.cons ?_ hpw
          intro b hb
          exact hdisj b hb (pane_to_agent pane)
            (List.mem_append_right _ (by simp))
    · rw [Bool.not_eq_true] at hc
      rw [hfold, hc]
      simp only [Bool.false_eq_true, if_false]
      exact ih acc

/-- C6: merging remote panes into the local tree keeps every local
agent (in place), never appends a remote agent whose working directory
and tool type are already present (locally or among earlier appended
remote agents), and therefore preserves the per-key count whenever the
key is already held by a local agent — so a local agent and a remote
agent sharing path and tool type appear exactly once, the local one
surviving. -/
theorem c6_merge_dedup (locals : List MonitoredAgent)
    (panes : List AgentOSPane) :
    ∃ extras, mergeRemotePanes locals panes = locals ++ extras ∧
      (∀ a ∈ extras, ∀ l ∈ locals,
        ¬(l.path = a.path ∧ l.agentType = a.agentType)) ∧
      extras.Pairwise (fun a b => ¬(a.path = b.path ∧ a.agentType = b.agentType)) ∧
      (∀ p ty, (∃ l ∈ locals, l.path = p ∧ l.agentType = ty) →
        countKeyAgents (mergeRemotePanes locals panes) p ty =
          countKeyAgents locals p ty) := by
  obtain ⟨extras, heq, hdisj, hpw⟩ := mergeRemotePanes_decomp panes locals
  refine ⟨extras, heq, hdisj, hpw, ?_⟩
  rintro p ty ⟨l, hl, hlp, hlt⟩
  rw [heq]
  unfold countKeyAgents
  rw [List.filter_append, List.length_append]
  have hnil : extras.filter (fun a => a.path == p && a.agentType == ty) = [] := by
    rw [List.filter_eq_nil_iff]
    intro a ha hpa
    simp only [Bool.and_eq_true, beq_iff_eq] at hpa
    exact hdisj a ha l hl ⟨hlp.trans hpa.1.symm, hlt.trans hpa.2.symm⟩
  rw [hnil]
  simp

/-- Witness for C6: one local agent at `/a` and one remote pane whose
workspace is also `/a` merge to the local agent alone. -/
theorem c6_witness :
    countKeyAgents (mergeRemotePanes [agentA] [remotePaneA]) (("/a").data)
        AgentType.claudeCode =
      countKeyAgents [agentA] (("/a").data) AgentType.claudeCode := by
  obtain ⟨extras, heq, hdisj, hpw, hcount⟩ := c6_merge_dedup [agentA] [remotePaneA]
  exact hcount (("/a").data) AgentType.claudeCode ⟨agentA, by simp, by decide, by decide⟩

/-! ## Claim C9: snapshot ordering -/

/-- A sorted list passes the consecutive-targets check. -/
theorem targetsSorted_of_sorted :
    ∀ l : List MonitoredAgent, List.Sorted targetLe l → targetsSorted l = true := by
  intro l
  induction l with
  | nil => intro _; rfl
  | cons a t ih =>
    intro h
    cases t with
    | nil => rfl
    | cons b t2 =>
      rw [List.sorted_cons] at h
      have hab : a.target ≤ b.target := h.1 b (by simp)
      have ht2 : targetsSorted (b :: t2) = true := ih h.2
      simp [targetsSorted, hab, ht2]

/-- The final sort of `poll_all` produces a target-sorted list. -/
theorem sortAgents_targetsSorted (l : List MonitoredAgent) :
    targetsSorted (sortAgents l) = true :=
  targetsSorted_of_sorted _ (List.sorted_insertionSort targetLe l)

/-- C9 (amended): every `poll_all` path that reaches the final sort —
no API client, an attempted (successful or failed) API cycle — emits a
target-sorted agent list; but the backoff-skip early return emits the
pane-enumeration list unsorted, exactly as collected. -/
theorem c9_snapshot_sorted (locals : List MonitoredAgent) (hasClient : Bool)
    (failCount pollIndex : Nat) (panesRes : Option (List AgentOSPane))
    (queueRes : Option (List Str)) :
    (hasClient = false ∨ shouldTryApi failCount pollIndex = true →
      targetsSorted (poll_all locals hasClient failCount pollIndex panesRes
        queueRes).agents = true) ∧
    (hasClient = true → shouldTryApi failCount pollIndex = false →
      (poll_all locals hasClient failCount pollIndex panesRes queueRes).agents =
        locals) := by
  constructor
  · rintro (rfl | h)
    · unfold poll_all
      simp [sortAgents_targetsSorted]
    · unfold poll_all
      cases hasClient with
      | false => simp [sortAgents_targetsSorted]
      | true =>
        simp only [h, Bool.not_true, Bool.false_eq_true, if_false, if_true]
        cases panesRes <;> simp [sortAgents_targetsSorted]
  · rintro rfl hskip
    unfold poll_all
    simp [hskip]

/-- Counterexample for C9 as stated: with a configured client, one
recorded failure and an odd poll index, the backoff path returns the
agents exactly as enumerated — here out of target order. -/
theorem c9_counterexample :
    (poll_all [agentB, agentA] true 1 1 none none).agents = [agentB, agentA] ∧
    targetsSorted [agentB, agentA] = false := by
  constructor
  · rfl
  · decide

/-- Witness for C9: an attempted cycle emits a sorted list. -/
theorem c9_witness :
    targetsSorted (poll_all [agentB, agentA] true 0 0 none none).agents = true :=
  (c9_snapshot_sorted [agentB, agentA] true 0 0 none none).1 (Or.inr (by decide))

/-! ## Claim C8: pane-listing robustness -/

/-- C8: an empty listing parses to an empty pane list; a line whose
entry fails to decompose is skipped without affecting the rest; every
returned pane comes from a line whose attached flag is "1" and whose
remainder parses; a line with fewer than six tab-separated fields is
rejected; and a line of a detached session is rejected. -/
theorem c8_list_panes :
    (∀ cache, list_panes cache [] = []) ∧
    (∀ cache pre post bad, paneLineEntry cache bad = none →
      listPanesFromLines cache (pre ++ bad :: post) =
        listPanesFromLines cache (pre ++ post)) ∧
    (∀ cache ls p, p ∈ listPanesFromLines cache ls →
      ∃ line ∈ ls, ∃ rest, splitOnceChar '\t' line = some ((("1").data), rest) ∧
        paneInfoParse cache rest = some p) ∧
    (∀ cache line, (splitOnCharStr '\t' line).length < 6 →
      paneInfoParse cache line = none) ∧
    (∀ cache line attached rest,
      splitOnceChar '\t' line = some (attached, rest) →
      attached ≠ ("1").data → paneLineEntry cache line = none) := by
  refine ⟨?_, ?_, ?_, ?_, ?_⟩
  · intro cache
    rfl
  · intro cache pre post bad h
    unfold listPanesFromLines
    simp [List.filterMap_append, List.filterMap_cons, h]
  · intro cache ls p hp
    unfold listPanesFromLines at hp
    rw [List.mem_filterMap] at hp
    obtain ⟨line, hline, hentry⟩ := hp
    unfold paneLineEntry at hentry
    cases hsplit : splitOnceChar '\t' line with
    | none => rw [hsplit] at hentry; simp at hentry
    | some pr =>
      obtain ⟨att, rest⟩ := pr
      rw [hsplit] at hentry
      dsimp only at hentry
      by_cases hatt : (att == ("1").data) = true
      · rw [if_pos hatt] at hentry
        have hatteq : att = ("1").data := by simpa using hatt
        subst hatteq
        exact ⟨line, hline, rest, hsplit, hentry⟩
      · rw [Bool.not_eq_true] at hatt
        rw [hatt] at hentry
        simp at hentry
  · intro cache line hlen
    unfold paneInfoParse
    rcases hp : splitOnCharStr '\t' line with
      _ | ⟨a, _ | ⟨b, _ | ⟨c2, _ | ⟨d, _ | ⟨e, _ | ⟨f, tail⟩⟩⟩⟩⟩⟩
    · rfl
    · rfl
    · rfl
    · rfl
    · rfl
    · rfl
    · rw [hp] at hlen
      simp at hlen
      omega
  · intro cache line attached rest hsplit hne
    unfold paneLineEntry
    rw [hsplit]
    dsimp only
    have : (attached == ("1").data) = false := beq_eq_false_iff_ne.mpr hne
    rw [this]
    simp

/-- Witness for C8: a line whose remainder has a single field is
skipped, leaving the (empty) rest of the listing intact. -/
theorem c8_witness :
    listPanesFromLines cacheZero [(("1\tjunk").data)] =
      listPanesFromLines cacheZero [] := by
  have h := c8_list_panes.2.1 cacheZero [] [] (("1\tjunk").data) (by decide)
  simpa using h

/-! ## Claim C2: button-style yes/no detection -/

/-- Unrolling `lastOrD` over a cons cell. -/
theorem lastOrD_cons (p : Str → Bool) (l : Str) (rest : List Str) (i : Nat)
    (d : Option Nat) :
    lastOrD p (l :: rest) i d =
      lastOrD p rest (i + 1) (if p l then some i else d) := by
  unfold lastOrD
  simp only [lastIdxP]
  cases hrec : lastIdxP p rest (i + 1) with
  | some j => simp [hrec]
  | none => cases hpl : p l <;> simp [hrec, hpl]

/-- The button scan records, for each of Yes and No, the index of the
last matching line of the (reversed) window — i.e. the earliest
matching line of the original capture order. -/
theorem ynLoop_spec :
    ∀ (cl : List Str) (i : Nat) (yi ni : Option Nat),
    ynLoop cl i (yi, ni) =
      (lastOrD yesCondLine cl i yi, lastOrD noCondLine cl i ni) := by
  intro cl
  induction cl with
  | nil =>
    intro i yi ni
    rfl
  | cons l rest ih =>
    intro i yi ni
    simp only [ynLoop, ynStep]
    rw [ih, lastOrD_cons, lastOrD_cons]

/-- When both buttons are found and the recorded indices are at most 4
apart, `detect_yes_no_buttons` fires. -/
theorem detect_yn_true (lines : List Str) (iy ni : Nat)
    (hy : lastIdxP yesCondLine ((lines.reverse).take 8) 0 = some iy)
    (hn : lastIdxP noCondLine ((lines.reverse).take 8) 0 = some ni)
    (hd : (if iy > ni then iy - ni else ni - iy) ≤ 4) :
    detect_yes_no_buttons lines = true := by
  simp only [detect_yes_no_buttons]
  rw [ynLoop_spec]
  unfold lastOrD
  rw [hy, hn]
  simp [hd]

/-- C2 (amended): when, among the last 8 lines of the 20-line tail
(scanned in reverse), the scan's recorded Yes index and No index — the
earliest qualifying Yes line and the earliest qualifying No line — are
at most 4 lines apart, `parse_status` reports AwaitingApproval; and the
prose negative control parses to Idle. -/
theorem c2_yes_no_buttons :
    (∀ (content : Str) (iy ni : Nat),
      lastIdxP yesCondLine (((recentLinesOf content).reverse).take 8) 0 =
        some iy →
      lastIdxP noCondLine (((recentLinesOf content).reverse).take 8) 0 =
        some ni →
      (if iy > ni then iy - ni else ni - iy) ≤ 4 →
      statusIsAwaiting (parse_status content) = true) ∧
    parse_status c2ControlCapture = AgentStatus.idle := by
  constructor
  · intro content iy ni hy hn hd
    have hbtn := detect_yn_true (recentLinesOf content) iy ni hy hn hd
    have hrl : recentLinesOf content ≠ [] := by
      intro h0
      rw [h0] at hy
      simp [lastIdxP] at hy
    have hlines : (linesSplit content).isEmpty = false := by
      cases hls : linesSplit content with
      | nil =>
        exfalso
        apply hrl
        unfold recentLinesOf
        rw [hls]
        rfl
      | cons a t => rfl
    have hda : ∃ r, detect_approval content = some r := by
      unfold detect_approval
      simp only [hlines, Bool.false_eq_true, if_false]
      cases hu : extract_user_question (recentOf content) with
      | some pr =>
        obtain ⟨choices, question⟩ := pr
        by_cases hc : choices.isEmpty = true
        · simp [hu, hc, hbtn]
        · rw [Bool.not_eq_true] at hc
          simp [hu, hc]
      | none => simp [hu, hbtn]
    obtain ⟨r, hr⟩ := hda
    unfold parse_status
    rw [hr]
    obtain ⟨t, d⟩ := r
    rfl
  · rfl

/-- Counterexample for C2 as stated: the last 8 lines hold a short Yes
line (index 2 of the reversed window) and a short No line (index 0),
within 4 lines of each other, yet `parse_status` yields Idle — the
scan recorded the earlier Yes at distance 7. -/
theorem c2_counterexample :
    yesCondLine ((((recentLinesOf c2BadCapture).reverse).take 8).getD 2 []) =
      true ∧
    noCondLine ((((recentLinesOf c2BadCapture).reverse).take 8).getD 0 []) =
      true ∧
    (2 : Nat) - 0 ≤ 4 ∧
    parse_status c2BadCapture = AgentStatus.idle := by
  refine ⟨by rfl, by rfl, by decide, by rfl⟩

/-- Witness for C2: adjacent Yes / No button lines above a prompt are
reported as AwaitingApproval. -/
theorem c2_witness : statusIsAwaiting (parse_status c2GoodCapture) = true :=
  c2_yes_no_buttons.1 c2GoodCapture 1 0 (by rfl) (by rfl) (by decide)

/-! ## Claim C1: numbered-choice question extraction -/

/-- A line that yields no choice number leaves an empty collection
state untouched. -/
theorem uqStep_skip (l : Str) (i : Nat) (st : UQState)
    (h : choiceNumOf l = none) (hemp : st.choices = []) : uqStep l i st = st := by
  unfold uqStep
  by_cases hb : borderLine (trimStr l) = true
  · simp [hb, hemp]
  · rw [Bool.not_eq_true] at hb
    cases hp : choicePatternParse l with
    | none => simp [hb, hp, hemp]
    | some pr =>
      obtain ⟨dg, cp⟩ := pr
      unfold choiceNumOf at h
      rw [hp] at h
      simp only [Option.some_bind] at h
      simp [hb, hp, h, hemp]

/-- A line carrying the next sequential number extends the collection
and stamps the indices. -/
theorem uqStep_accept (l : Str) (i : Nat) (st : UQState) (dg cp : Str)
    (hp : choicePatternParse l = some (dg, cp))
    (hn : parseNatU U32_BOUND dg = some (st.choices.length + 1)) :
    uqStep l i st =
      { choices := st.choices ++ [uqLabelClean cp],
        firstIdx := if st.firstIdx.isSome then st.firstIdx else some i,
        lastIdx := some i } := by
  have hb := choiceParse_not_border l (dg, cp) hp
  unfold uqStep
  simp [hb, hp, hn]

/-- A short (or blank) non-choice, non-border line preserves the
state. -/
theorem uqStep_keepS (l : Str) (i : Nat) (st : UQState)
    (hb : borderLine (trimStr l) = false) (hp : choicePatternParse l = none)
    (hlen : trimStr l = [] ∨ utf8Len (trimStr l) ≤ 30) : uqStep l i st = st := by
  unfold uqStep
  rcases hlen with h | h
  · simp [hp, h, borderLine]
  · have h30 : decide (30 < utf8Len (trimStr l)) = false := by
      simp
      omega
    simp [hb, hp, h30]

/-- From an empty collection, only a line numbered 1 can start one. -/
theorem uqStep_choices_nil (l : Str) (i : Nat) (st : UQState)
    (hemp : st.choices = []) (h1 : choiceNumOf l ≠ some 1) :
    (uqStep l i st).choices = [] := by
  unfold uqStep
  by_cases hb : borderLine (trimStr l) = true
  · simp [hb, hemp]
  · rw [Bool.not_eq_true] at hb
    cases hp : choicePatternParse l with
    | none => simp [hb, hp, hemp]
    | some pr =>
      obtain ⟨dg, cp⟩ := pr
      cases hn : parseNatU U32_BOUND dg with
      | none => simp [hb, hp, hn, hemp]
      | some n =>
        have hne : ¬(n = 1) := by
          intro hcontra
          apply h1
          unfold choiceNumOf
          rw [hp]
          simp [hn, hcontra]
        simp [hb, hp, hn, hne, hemp]

/-- The collection loop distributes over list append. -/
theorem uqLoop_append (xs : List Str) : ∀ (ys : List Str) (i : Nat) (st : UQState),
    uqLoop (xs ++ ys) i st = uqLoop ys (i + xs.length) (uqLoop xs i st) := by
  induction xs with
  | nil =>
    intro ys i st
    simp [uqLoop]
  | cons l rest ih =>
    intro ys i st
    simp only [List.cons_append, uqLoop, List.length_cons, List.append_eq]
    rw [ih, show i + (rest.length + 1) = i + 1 + rest.length from by omega]

/-- A prefix with no parseable choice numbers leaves the empty state. -/
theorem uqLoop_skip (P : List Str) : ∀ i : Nat,
    (∀ l ∈ P, choiceNumOf l = none) → uqLoop P i uqInit = uqInit := by
  induction P with
  | nil => intro i _; rfl
  | cons l rest ih =>
    intro i h
    simp only [uqLoop]
    rw [uqStep_skip l i uqInit (h l (by simp)) rfl]
    exact ih (i + 1) (fun x hx => h x (by simp [hx]))

/-- A suffix of blank / short non-choice lines preserves any state. -/
theorem uqLoop_keep (SS : List Str) : ∀ (i : Nat) (st : UQState),
    (∀ l ∈ SS, borderLine (trimStr l) = false ∧ choicePatternParse l = none ∧
      (trimStr l = [] ∨ utf8Len (trimStr l) ≤ 30)) →
    uqLoop SS i st = st := by
  induction SS with
  | nil => intro i st _; rfl
  | cons l rest ih =>
    intro i st h
    obtain ⟨hb, hp, hl⟩ := h l (by simp)
    simp only [uqLoop]
    rw [uqStep_keepS l i st hb hp hl]
    exact ih (i + 1) st (fun x hx => h x (by simp [hx]))

/-- A sequential block starting right after the current collection
extends it with the block's labels and stamps first/last indices. -/
theorem uqLoop_block (rest : List Str) : ∀ (l : Str) (i : Nat) (st : UQState),
    (∀ j < (l :: rest).length,
      choiceNumOf ((l :: rest).getD j []) = some (st.choices.length + j + 1)) →
    uqLoop (l :: rest) i st =
      { choices := st.choices ++ (l :: rest).map uqLineLabel,
        firstIdx := if st.firstIdx.isSome then st.firstIdx else some i,
        lastIdx := some (i + rest.length) } := by
  induction rest with
  | nil =>
    intro l i st h
    have h0 := h 0 (by simp)
    simp only [List.getD_cons_zero] at h0
    unfold choiceNumOf at h0
    cases hp : choicePatternParse l with
    | none => rw [hp] at h0; simp at h0
    | some pr =>
      obtain ⟨dg, cp⟩ := pr
      rw [hp] at h0
      simp only [Option.some_bind] at h0
      have h0' : parseNatU U32_BOUND dg = some (st.choices.length + 1) := by
        simpa using h0
      simp only [uqLoop]
      rw [uqStep_accept l i st dg cp hp h0']
      simp [uqLineLabel, hp]
  | cons l2 rest2 ih =>
    intro l i st h
    have h0 := h 0 (by simp)
    simp only [List.getD_cons_zero] at h0
    unfold choiceNumOf at h0
    cases hp : choicePatternParse l with
    | none => rw [hp] at h0; simp at h0
    | some pr =>
      obtain ⟨dg, cp⟩ := pr
      rw [hp] at h0
      simp only [Option.some_bind] at h0
      have h0' : parseNatU U32_BOUND dg = some (st.choices.length + 1) := by
        simpa using h0
      rw [show uqLoop (l :: l2 :: rest2) i st =
        uqLoop (l2 :: rest2) (i + 1) (uqStep l i st) from rfl]
      rw [uqStep_accept l i st dg cp hp h0']
      have hshift : ∀ j < (l2 :: rest2).length,
          choiceNumOf ((l2 :: rest2).getD j []) =
            some ((st.choices ++ [uqLabelClean cp]).length + j + 1) := by
        intro j hj
        have hj' := h (j + 1) (by simpa using Nat.succ_lt_succ hj)
        simp only [List.getD_cons_succ] at hj'
        rw [hj']
        simp only [List.length_append, List.length_cons, List.length_nil,
          Option.some.injEq]
        omega
      rw [ih l2 (i + 1)
        { choices := st.choices ++ [uqLabelClean cp],
          firstIdx := if st.firstIdx.isSome then st.firstIdx else some i,
          lastIdx := some i } hshift]
      have hfi : (if st.firstIdx.isSome then st.firstIdx else some i).isSome =
          true := by
        cases hsf : st.firstIdx <;> simp [hsf]
      dsimp only
      simp only [hfi, if_true, List.map_cons, UQState.mk.injEq]
      refine ⟨?_, ?_, ?_⟩
      · simp [uqLineLabel, hp, List.append_assoc]
      · trivial
      · simp only [Option.some.injEq, List.length_cons]
        omega

/-- With no line numbered 1 in the window, the collection stays
empty. -/
theorem uqLoop_choices_nil (cl : List Str) : ∀ (i : Nat) (st : UQState),
    st.choices = [] → (∀ l ∈ cl, choiceNumOf l ≠ some 1) →
    (uqLoop cl i st).choices = [] := by
  induction cl with
  | nil =>
    intro i st h _
    simpa [uqLoop] using h
  | cons l rest ih =>
    intro i st hemp hall
    simp only [uqLoop]
    exact ih (i + 1) (uqStep l i st)
      (uqStep_choices_nil l i st hemp (hall l (by simp)))
      (fun x hx => hall x (by simp [hx]))

/-- When the scanned window decomposes into a choice-free prefix, a
sequential block numbered from 1, and a short harmless suffix of at
most 7 lines, `extract_user_question` returns exactly the block's
cleaned labels plus the backward-searched question line. -/
theorem extract_uq_block (content : Str) (P B SS : List Str)
    (hWin : uqWindowOfLines (linesSplit content) = P ++ B ++ SS)
    (hB2 : 2 ≤ B.length)
    (hP : ∀ l ∈ P, choiceNumOf l = none)
    (hBn : ∀ j < B.length, choiceNumOf (B.getD j []) = some (j + 1))
    (hS : ∀ l ∈ SS, borderLine (trimStr l) = false ∧ choicePatternParse l = none ∧
      (trimStr l = [] ∨ utf8Len (trimStr l) ≤ 30))
    (hS7 : SS.length ≤ 7) :
    extract_user_question content =
      some (B.map uqLineLabel,
        questionBack (P ++ B ++ SS) P.length P.length []) := by
  obtain ⟨b, brest, rfl⟩ : ∃ b brest, B = b :: brest := by
    cases B with
    | nil => simp at hB2
    | cons b brest => exact ⟨b, brest, rfl⟩
  have hlines : (linesSplit content).isEmpty = false := by
    cases hls : linesSplit content with
    | nil =>
      exfalso
      rw [hls] at hWin
      have h0 : uqWindowOfLines ([] : List Str) = [] := rfl
      rw [h0] at hWin
      simp at hWin
    | cons a t => rfl
  have hBn0 : ∀ j < (b :: brest).length,
      choiceNumOf ((b :: brest).getD j []) =
        some ((uqInit : UQState).choices.length + j + 1) := by
    intro j hj
    simpa [uqInit] using hBn j hj
  have hloop : uqLoop (P ++ (b :: brest) ++ SS) 0 uqInit =
      { choices := (b :: brest).map uqLineLabel,
        firstIdx := some P.length,
        lastIdx := some (P.length + brest.length) } := by
    rw [List.append_assoc, uqLoop_append, uqLoop_skip P 0 hP, Nat.zero_add,
      uqLoop_append, uqLoop_block brest b P.length uqInit hBn0,
      uqLoop_keep SS _ _ hS]
    rfl
  have hclb : (uqWindowOfLines (linesSplit content)).isEmpty = false := by
    rw [hWin]
    cases P <;> rfl
  simp only [extract_user_question, hlines, Bool.false_eq_true, if_false, hclb]
  rw [hWin, hloop]
  dsimp only
  have htf : decide
      (8 < (P ++ (b :: brest) ++ SS).length - (P.length + brest.length)) =
      false := by
    simp only [decide_eq_false_iff_not, List.length_append, List.length_cons]
    omega
  rw [htf]
  simp only [Bool.false_eq_true, if_false]
  have h2 : decide (2 ≤ ((b :: brest).map uqLineLabel).length) = true := by
    simp only [List.length_map, List.length_cons, decide_eq_true_eq]
    simpa using hB2
  rw [h2]
  simp

/-- C1 (amended): (positive half) for every capture whose scanned
window — the ≤25 lines before the last prompt marker within the
re-split 20-line tail — decomposes as a prefix with no parseable
choice number, a contiguous block of 2 or more lines numbered
sequentially from 1, and at most 7 trailing lines each blank, short
(≤30 bytes trimmed) and free of border glyphs and choice numbers,
`parse_status` returns AwaitingApproval with kind UserQuestion whose
choices are exactly the block's cleaned labels (hence one per block
line); (negative half) a capture whose window holds no line parsing as
a choice numbered 1 — in particular a window whose only numbering is
non-sequential with no fresh block restarting at 1 — never yields a
UserQuestion kind. -/
theorem c1_user_question :
    (∀ (content : Str) (P B SS : List Str),
      uqWindowOfLines (linesSplit (recentOf content)) = P ++ B ++ SS →
      2 ≤ B.length →
      (∀ l ∈ P, choiceNumOf l = none) →
      (∀ j < B.length, choiceNumOf (B.getD j []) = some (j + 1)) →
      (∀ l ∈ SS, borderLine (trimStr l) = false ∧
        choicePatternParse l = none ∧
        (trimStr l = [] ∨ utf8Len (trimStr l) ≤ 30)) →
      SS.length ≤ 7 →
      parse_status content =
        AgentStatus.awaitingApproval
          (ApprovalType.userQuestion (B.map uqLineLabel) false)
          (questionBack (P ++ B ++ SS) P.length P.length []) ∧
        (B.map uqLineLabel).length = B.length) ∧
    (∀ content : Str,
      (∀ l ∈ uqWindowOfLines (linesSplit (recentOf content)),
        choiceNumOf l ≠ some 1) →
      statusIsUserQuestion (parse_status content) = false) := by
  constructor
  · intro content P B SS hWin hB2 hP hBn hS hS7
    have hex := extract_uq_block (recentOf content) P B SS hWin hB2 hP hBn hS hS7
    have hB0 : B ≠ [] := by
      intro h0
      rw [h0] at hB2
      simp at hB2
    have hclne : uqWindowOfLines (linesSplit (recentOf content)) ≠ [] := by
      rw [hWin]
      intro h0
      have hl := congrArg List.length h0
      simp only [List.length_append, List.length_nil] at hl
      have := hB2
      omega
    have hcont : (linesSplit content).isEmpty = false := by
      cases hls : linesSplit content with
      | cons a t => rfl
      | nil =>
        exfalso
        apply hclne
        have hrecl : recentLinesOf content = [] := by
          unfold recentLinesOf
          rw [hls]
          rfl
        have hrec : recentOf content = [] := by
          unfold recentOf
          rw [hrecl]
          rfl
        rw [hrec]
        rfl
    have hmne : (B.map uqLineLabel).isEmpty = false := by
      cases hbm : B.map uqLineLabel with
      | nil =>
        exfalso
        apply hB0
        simpa using hbm
      | cons x xs => rfl
    constructor
    · unfold parse_status detect_approval
      simp only [hcont, Bool.false_eq_true, if_false]
      rw [hex]
      dsimp only
      rw [hmne]
      rfl
    · simp
  · intro content hall
    by_cases hcont : (linesSplit content).isEmpty = true
    · unfold parse_status detect_approval
      simp only [hcont, if_true]
      split <;> rfl
    · rw [Bool.not_eq_true] at hcont
      have huq : extract_user_question (recentOf content) = none := by
        simp only [extract_user_question]
        by_cases hl2 : (linesSplit (recentOf content)).isEmpty = true
        · simp [hl2]
        · rw [Bool.not_eq_true] at hl2
          simp only [hl2, Bool.false_eq_true, if_false]
          by_cases hcw :
              (uqWindowOfLines (linesSplit (recentOf content))).isEmpty = true
          · simp [hcw]
          · rw [Bool.not_eq_true] at hcw
            simp only [hcw, Bool.false_eq_true, if_false]
            have hch : (uqLoop (uqWindowOfLines (linesSplit (recentOf content)))
                0 uqInit).choices = [] :=
              uqLoop_choices_nil _ 0 uqInit rfl hall
            have h2 : decide (2 ≤ (uqLoop
                (uqWindowOfLines (linesSplit (recentOf content)))
                0 uqInit).choices.length) = false := by
              simp [hch]
            split
            · rfl
            · rw [h2]
              simp
      unfold parse_status detect_approval
      simp only [hcont, Bool.false_eq_true, if_false]
      rw [huq]
      dsimp only
      by_cases hsig : (!detect_yes_no_buttons (recentLinesOf content) &&
          !generalApprovalMatch
            (joinNl (((recentLinesOf content).reverse).take 10))) = true
      · rw [hsig]
        simp only [if_true]
        split <;> rfl
      · rw [Bool.not_eq_true] at hsig
        rw [hsig]
        simp only [Bool.false_eq_true, if_false]
        have hkind : statusIsUserQuestion (AgentStatus.awaitingApproval
            (detectApprovalKind content).1 (detectApprovalKind content).2) =
            false := by
          unfold detectApprovalKind
          dsimp only
          split_ifs <;> rfl
        rcases hdk : detectApprovalKind content with ⟨t, d⟩
        rw [hdk] at hkind
        simpa using hkind

/-- Counterexample for C1 as stated: the capture's window numbering is
non-sequential (a line numbered 1 followed by a line numbered 3), yet
`parse_status` does return a UserQuestion kind, because the scan resets
and a fresh block restarting at 1 follows. -/
theorem c1_counterexample :
    uqWindowOfLines (linesSplit (recentOf c1BadCapture)) =
      [(("1. a").data), (("3. b").data), (("1. c").data), (("2. d").data)] ∧
    choiceNumOf (("1. a").data) = some 1 ∧
    choiceNumOf (("3. b").data) = some 3 ∧
    statusIsUserQuestion (parse_status c1BadCapture) = true := by
  refine ⟨by rfl, by rfl, by rfl, by rfl⟩

/-- Witness for C1: a clean two-choice block under a question line. -/
theorem c1_witness :
    parse_status c1GoodCapture =
      AgentStatus.awaitingApproval
        (ApprovalType.userQuestion [(("foo").data), (("bar").data)] false)
        (("Which option?").data) := by
  have h := c1_user_question.1 c1GoodCapture [(("Which option?").data)]
    [(("1. foo").data), (("2. bar").data)] [] (by rfl) (by norm_num) (by decide)
    (by decide) (by simp) (by norm_num)
  rw [h.1]
  rfl

/-- Witness for C3: the hysteresis scenario at a concrete target and
empty initial map. -/
theorem c3_witness :
    applyHysteresis (fun _ => none) (("a:0.0").data) 0
      (AgentStatus.processing (("Thinking").data)) =
      (AgentStatus.processing (("Thinking").data),
       lastActiveInsert (fun _ => none) (("a:0.0").data) 0) :=
  (c3_hysteresis (fun _ => none) (("a:0.0").data) (("Thinking").data)).1
